import Mathlib

/-!
Shallow embedding of the flash-loan harvesting and decoding pipeline from
`src/research/extract_all_flashloans.py`, `src/research/query_all_flashloans.py`
and `src/research/query_balancer_flashloans.py`.

Modelling conventions:
* Python unbounded `int` values are `Nat` (all quantities here are unsigned).
* Python `float` arithmetic on analytics outputs is modelled over `ℚ`
  (the spec declares precision loss acceptable; the claims only involve
  exactly representable values).
* Hex payloads (`log.data` after the `0x` prefix, hex-string gas values after
  their prefix) are lists of hex digits `Fin 16`; `int(s, 16)` is the
  big-endian fold `hexBE`.
* A Python `dict` is an association list with first-match lookup and
  replace-in-place-or-append insertion, matching CPython semantics.
* Fallible Python code (a `TypeError` from `int(x, 16)` on a non-string)
  is modelled with `Except`.
-/

namespace Liq

/-- A hex digit, the value of one character of a hexadecimal numeral. -/
abbrev HexDigit := Fin 16

/-- Big-endian value of a hex-digit string: Python `int(s, 16)` for a
well-formed numeral `s`. -/
def hexBE (ds : List HexDigit) : Nat :=
  ds.foldl (fun a d => a * 16 + d.val) 0

/-- A gas figure as the indexing service may deliver it: either a hex-string
numeral `0x` + digits, or a plain number.  Mirrors the
`isinstance(tx.gas_used, str)` dispatch in the Python sources. -/
inductive GasVal where
  | hexStr : List HexDigit → GasVal
  | num : Nat → GasVal
deriving DecidableEq, Repr

/-- Python truthiness of a gas value: a hex string `0x…` is a nonempty string,
hence always truthy; a number is truthy iff nonzero. -/
def GasVal.truthy : GasVal → Bool
  | .hexStr _ => true
  | .num n => n ≠ 0

/-- One transaction-metadata record as returned by the service
(fields `hash`, `gas_used`, `gas_price`; `none` models an absent field). -/
structure Tx where
  hash : Option String
  gas_used : Option GasVal
  gas_price : Option GasVal
deriving DecidableEq, Repr

/-- One raw event log as returned by the service.  `data` is the hex payload
after the `0x` prefix (`none` models an absent/falsy `data` field). -/
structure RawLog where
  transaction_hash : String
  block_number : Nat
  topics : List String
  data : Option (List HexDigit)
deriving DecidableEq, Repr

/-- First-match lookup in an association list: Python `d.get(k)`. -/
def dictLookup (d : List (String × Tx)) (k : String) : Option Tx :=
  match d with
  | [] => none
  | (k₀, v₀) :: rest => if k₀ = k then some v₀ else dictLookup rest k

/-- Python `d[k] = v`: replace the value in place if the key is present,
otherwise append the new binding. -/
def dictInsert (d : List (String × Tx)) (k : String) (v : Tx) : List (String × Tx) :=
  match d with
  | [] => [(k, v)]
  | (k₀, v₀) :: rest =>
      if k₀ = k then (k₀, v) :: rest else (k₀, v₀) :: dictInsert rest k v

/-- The `KNOWN_TOKENS` table of `extract_all_flashloans.py`: padded token
topic → (symbol, decimals). -/
def KNOWN_TOKENS : List (String × String × Nat) :=
  [ ("0x000000000000000000000000a0b86991c6218b36c1d19d4a2e9eb0ce3606eb48", ("USDC", 6)),
    ("0x000000000000000000000000dac17f958d2ee523a2206206994597c13d831ec7", ("USDT", 6)),
    ("0x0000000000000000000000006b175474e89094c44da98b954eedeac495271d0f", ("DAI", 18)),
    ("0x000000000000000000000000853d955acef822db058eb8505911ed77f175b99e", ("FRAX", 18)),
    ("0x0000000000000000000000005f98805a4e8be255a32880fdec7f6728c6568ba0", ("LUSD", 18)),
    ("0x000000000000000000000000c02aaa39b223fe8d0a0e5c4f27ead9083c756cc2", ("WETH", 18)),
    ("0x0000000000000000000000002260fac5e5542a773aa44fbcfedf7c193bc2c599", ("WBTC", 8)),
    ("0x000000000000000000000000cd5fe23c85820f7b72d0926fc9b05b43e359b7ee", ("weETH", 18)),
    ("0x0000000000000000000000007f39c581f595b53c5cb19bd0b3f8da6c935e2ca0", ("wstETH", 18)),
    ("0x000000000000000000000000ae78736cd615f374d3085123a210448e74fc6393", ("rETH", 18)),
    ("0x000000000000000000000000be9895146f7af43049ca1c1ae358b0541ea49704", ("cbETH", 18)),
    ("0x000000000000000000000000a35b1b31ce002fbf2058d22f30f95d405200a15b", ("ETHx", 18)),
    ("0x000000000000000000000000ac3e018457b222d93114458476f3e3416abbe38f", ("sfrxETH", 18)) ]

/-- Lookup `KNOWN_TOKENS.get(token_topic)` where the key may be `None`. -/
def lookupKnownToken (t : Option String) : Option (String × Nat) :=
  t.bind fun s => (KNOWN_TOKENS.find? (fun p => p.1 == s)).map (·.2)

/-- Lines 119–124 of `extract_all_flashloans.py`: extract `(amount_raw, fee_raw)`
from the payload.  The Python guards compare `len(log.data)` — two prefix
characters plus one character per digit — against 66 and 130. -/
def decodeData : Option (List HexDigit) → Nat × Nat
  | none => (0, 0)
  | some ds =>
      if 2 + ds.length ≥ 66 then
        (hexBE (ds.take 64),
          if 2 + ds.length ≥ 130 then hexBE ((ds.drop 64).take 64) else 0)
      else (0, 0)

/-- Normalize an optional gas figure exactly as lines 131–135 of
`extract_all_flashloans.py`: skipped when absent or falsy (leaving 0),
hex strings parsed with `int(_, 16)`, numbers taken as-is. -/
def normGas : Option GasVal → Nat
  | none => 0
  | some v =>
      if v.truthy then
        match v with
        | .hexStr ds => hexBE ds
        | .num n => n
      else 0

/-- Python `s[a:b]` on the character list of a string. -/
def strSlice (s : String) (a b : Nat) : String :=
  String.mk ((s.data.drop a).take (b - a))

/-- Python `s[a:]`. -/
def strFrom (s : String) (a : Nat) : String :=
  String.mk (s.data.drop a)

/-- The canonical decoded record built by `decode_flashloan_log` in
`extract_all_flashloans.py` (its returned dict, lines 137–149). -/
structure DecodedEvent where
  tx_hash : String
  block : Nat
  token : String
  token_address : String
  amount_raw : Nat
  amount : ℚ
  decimals : Nat
  fee_raw : Nat
  gas_used : Nat
  gas_price_gwei : ℚ
  recipient : String
deriving DecidableEq, Repr

/-- Gas used joined from the transaction index (lines 128–133). -/
def txGasUsed (txs : List (String × Tx)) (h : String) : Nat :=
  match dictLookup txs h with
  | some t => normGas t.gas_used
  | none => 0

/-- Gas price joined from the transaction index (lines 128–131, 134–135). -/
def txGasPrice (txs : List (String × Tx)) (h : String) : Nat :=
  match dictLookup txs h with
  | some t => normGas t.gas_price
  | none => 0

/-- The function `decode_flashloan_log` of `extract_all_flashloans.py` (lines 107–149). -/
def decode_flashloan_log (log : RawLog) (txs : List (String × Tx)) : DecodedEvent :=
  let recipient_topic : Option String := log.topics[1]?
  let token_topic : Option String := log.topics[2]?
  let td : String × Nat :=
    match lookupKnownToken token_topic with
    | some info => info
    | none =>
        (match token_topic with
         | some t => strSlice t 26 42 ++ "..."
         | none => "Unknown", 18)
  let amounts := decodeData log.data
  let gas_price := txGasPrice txs log.transaction_hash
  { tx_hash := log.transaction_hash
    block := log.block_number
    token := td.1
    token_address :=
      match token_topic with
      | some t => strFrom t 26
      | none => ""
    amount_raw := amounts.1
    amount := (amounts.1 : ℚ) / 10 ^ td.2
    decimals := td.2
    fee_raw := amounts.2
    gas_used := txGasUsed txs log.transaction_hash
    gas_price_gwei := if gas_price = 0 then 0 else (gas_price : ℚ) / 10 ^ 9
    recipient :=
      match recipient_topic with
      | some t => strFrom t 26
      | none => "" }

/-! ### The balancer variant of the decoder

`query_balancer_flashloans.py` normalizes gas with
`int(tx.gas_used, 16) if tx and tx.gas_used else 0` (lines 126–127): a truthy
numeric value reaches `int(n, 16)`, which raises `TypeError` in Python.
Modelled with `Except`. -/

/-- The `STABLECOIN_TOPICS` table of `query_balancer_flashloans.py`
(`STABLECOINS` keys re-padded to 32 bytes). -/
def STABLECOIN_TOPICS : List (String × String) :=
  [ ("0x000000000000000000000000a0b86991c6218b36c1d19d4a2e9eb0ce3606eb48", "USDC"),
    ("0x000000000000000000000000dac17f958d2ee523a2206206994597c13d831ec7", "USDT"),
    ("0x0000000000000000000000006b175474e89094c44da98b954eedeac495271d0f", "DAI"),
    ("0x0000000000000000000000004fabb145d64652a948d72533023f6e7a623c7c53", "BUSD"),
    ("0x0000000000000000000000008e870d67f660d95d5be530380d0ec0bd388289e1", "USDP"),
    ("0x0000000000000000000000000000000000085d4780b73119b644ae5ecd22b376", "TUSD"),
    ("0x000000000000000000000000853d955acef822db058eb8505911ed77f175b99e", "FRAX"),
    ("0x0000000000000000000000005f98805a4e8be255a32880fdec7f6728c6568ba0", "LUSD"),
    ("0x00000000000000000000000057ab1ec28d129707052df4df418d58a2d46d5f51", "sUSD"),
    ("0x0000000000000000000000001abaea1f7c830bd89acc67ec4af516284b1bc33c", "EURC") ]

/-- Gas normalization of `query_balancer_flashloans.py` lines 126–127:
`int(g, 16) if tx and g else 0`, where `int(n, 16)` on a number raises. -/
def balancerGas (g : Option GasVal) : Except String Nat :=
  match g with
  | none => .ok 0
  | some v =>
      if v.truthy then
        match v with
        | .hexStr ds => .ok (hexBE ds)
        | .num _ => .error "TypeError: int() cannot convert non-string with explicit base"
      else .ok 0

/-- The returned dict of `decode_flashloan_log` in
`query_balancer_flashloans.py` (lines 129–139). -/
structure BalancerEvent where
  tx_hash : String
  block : Nat
  token : String
  token_address : Option String
  amount : Nat
  fee : Nat
  gas_used : Nat
  gas_price_gwei : ℚ
  recipient : Option String
deriving DecidableEq, Repr

/-- The function `decode_flashloan_log` of `query_balancer_flashloans.py` (lines 111–139). -/
def decode_flashloan_log_balancer (log : RawLog) (txs : List (String × Tx)) :
    Except String BalancerEvent := do
  let recipient_topic : Option String := log.topics[1]?
  let token_topic : Option String := log.topics[2]?
  let token_name :=
    match token_topic.bind fun s => (STABLECOIN_TOPICS.find? (fun p => p.1 == s)).map (·.2) with
    | some n => n
    | none => "Unknown"
  let amounts := decodeData log.data
  let tx := dictLookup txs log.transaction_hash
  let gas_used ← balancerGas (tx.bind (·.gas_used))
  let gas_price ← balancerGas (tx.bind (·.gas_price))
  return { tx_hash := log.transaction_hash
           block := log.block_number
           token := token_name
           token_address := token_topic
           amount := amounts.1
           fee := amounts.2
           gas_used := gas_used
           gas_price_gwei := (gas_price : ℚ) / 10 ^ 9
           recipient := recipient_topic }

/-! ### The harvest loop

Lines 84–102 of `extract_all_flashloans.py` (the loop of `query_flashloans`;
`query_all_flashloans.py` lines 82–98 is the same loop).  The remote service is
a function from the current `from_block` to one page of results; the `while
True` loop is given explicit fuel, `none` meaning it has not terminated within
that many service calls. -/

/-- One page returned by the indexing service. -/
structure Page where
  logs : List RawLog
  transactions : List Tx
  next_block : Nat
  archive_height : Nat

/-- The loop accumulators `all_logs` and `all_txs`. -/
structure HState where
  all_logs : List RawLog
  all_txs : List (String × Tx)

/-- Lines 90–93: enter a transaction into `all_txs` only when it has a truthy
`hash` attribute; plain dict assignment otherwise. -/
def insertTx (d : List (String × Tx)) (t : Tx) : List (String × Tx) :=
  match t.hash with
  | some h => if h ≠ "" then dictInsert d h t else d
  | none => d

/-- Lines 90–93: fold one page of transactions into the index. -/
def insertTxs (d : List (String × Tx)) (ts : List Tx) : List (String × Tx) :=
  ts.foldl insertTx d

/-- Lines 87–93: accumulate one page. -/
def harvestStep (st : HState) (p : Page) : HState :=
  { all_logs := st.all_logs ++ p.logs
    all_txs := insertTxs st.all_txs p.transactions }

/-- Line 95, `target = to_block or res.archive_height`: Python `or` takes the
archive height when `to_block` is `None` or `0`. -/
def effectiveTarget (to_block : Option Nat) (archive : Nat) : Nat :=
  match to_block with
  | some t => if t = 0 then archive else t
  | none => archive

/-- The `while True` loop of `query_flashloans`, with fuel: `some st` when the
break at line 99–100 fires within `fuel` service calls, `none` otherwise. -/
def harvestGo (service : Nat → Page) (to_block : Option Nat) :
    Nat → Nat → HState → Option HState
  | 0, _, _ => none
  | fuel + 1, fromB, st =>
      let res := service fromB
      let st := harvestStep st res
      let target := effectiveTarget to_block res.archive_height
      if res.next_block ≥ target then some st
      else harvestGo service to_block fuel res.next_block st

/-- The function `query_flashloans` of `extract_all_flashloans.py`, lines 81–104: run the
loop from empty accumulators. -/
def query_flashloans (service : Nat → Page) (from_block : Nat)
    (to_block : Option Nat) (fuel : Nat) : Option (List RawLog × List (String × Tx)) :=
  (harvestGo service to_block fuel from_block ⟨[], []⟩).map fun st =>
    (st.all_logs, st.all_txs)

/-! ### The aggregator

Lines 183–199 of `extract_all_flashloans.py`: group decoded events by token
(`defaultdict` preserves first-occurrence key order), sort descending by event
count (`sorted` is stable), keep the first 15 groups, and report count,
min/max/avg scaled amount and — when any positive figure is present —
min/max/avg gas used.  The sum over scaled amounts is the numerator of the
reported average (and the total printed by the stablecoin section,
lines 213–218). -/

/-- Key order of a Python dict built by insertion: first occurrence wins. -/
def firstKeysAux (seen : List String) : List String → List String
  | [] => []
  | x :: xs => if x ∈ seen then firstKeysAux seen xs else x :: firstKeysAux (x :: seen) xs

/-- Keys of `by_token` in insertion order. -/
def firstKeys (l : List String) : List String :=
  firstKeysAux [] l

/-- Stable insertion, descending by `key`: the new element goes before the
first element whose key is not larger, as Python stable `sorted` with
`key=lambda x: -len(x[1])` orders tied groups by first insertion. -/
def insertDesc (key : α → Nat) (x : α) : List α → List α
  | [] => [x]
  | y :: ys => if key y ≤ key x then x :: y :: ys else y :: insertDesc key x ys

/-- Stable sort, descending by `key`. -/
def sortDesc (key : α → Nat) : List α → List α
  | [] => []
  | x :: xs => insertDesc key x (sortDesc key xs)

/-- Python `min` over a nonempty list of rationals. -/
def qMin : List ℚ → ℚ
  | [] => 0
  | x :: xs => xs.foldl min x

/-- Python `max` over a nonempty list of rationals. -/
def qMax : List ℚ → ℚ
  | [] => 0
  | x :: xs => xs.foldl max x

/-- Python `min` over a nonempty list of naturals. -/
def nMin : List Nat → Nat
  | [] => 0
  | x :: xs => xs.foldl min x

/-- Python `max` over a nonempty list of naturals. -/
def nMax : List Nat → Nat
  | [] => 0
  | x :: xs => xs.foldl max x

/-- The per-token figures the summary loop reports. -/
structure TokenSummary where
  token : String
  count : Nat
  minAmt : ℚ
  maxAmt : ℚ
  total : ℚ
  avgAmt : ℚ
  gasStats : Option (Nat × Nat × ℚ)
deriving DecidableEq, Repr

/-- The figures printed for one token group (lines 193–199). -/
def buildSummary (t : String) (es : List DecodedEvent) : TokenSummary :=
  let amounts := es.map (·.amount)
  let gas_list := (es.map (·.gas_used)).filter (fun g => 0 < g)
  { token := t
    count := es.length
    minAmt := qMin amounts
    maxAmt := qMax amounts
    total := amounts.sum
    avgAmt := amounts.sum / (es.length : ℚ)
    gasStats :=
      if gas_list.isEmpty then none
      else some (nMin gas_list, nMax gas_list, (gas_list.sum : ℚ) / (gas_list.length : ℚ)) }

/-- The summary-by-token report of `main` (lines 183–199): group, sort
descending by count, truncate to 15, build per-group figures. -/
def summarize (events : List DecodedEvent) : List TokenSummary :=
  let keys := firstKeys (events.map (·.token))
  let groups := keys.map fun t => (t, events.filter (fun e => e.token == t))
  ((sortDesc (fun g => g.2.length) groups).take 15).map fun g => buildSummary g.1 g.2

/-! ### Concrete sample inputs used by witnesses and counterexamples -/

/-- The padded USDC topic, a key of `KNOWN_TOKENS`. -/
def usdcTopic : String :=
  "0x000000000000000000000000a0b86991c6218b36c1d19d4a2e9eb0ce3606eb48"

/-- Payload digits of the amount word for `1_000_000` (hex `F4240`),
left-padded to 64 hex digits. -/
def usdcAmountDigits : List HexDigit :=
  List.replicate 59 0 ++ [15, 4, 2, 4, 0]

/-- A well-formed USDC flash-loan log whose payload encodes amount 1000000. -/
def usdcLog : RawLog :=
  { transaction_hash := "0xabc"
    block_number := 19000001
    topics := ["0x0d7d75e01ab95780d3cd1c8ec0dd6c2ce19e3a20427eec8bf53283b6fb8e95f0",
               "0x000000000000000000000000cafecafecafecafecafecafecafecafecafecafe",
               usdcTopic]
    data := some usdcAmountDigits }

/-- A transaction record with numeric gas figures. -/
def sampleTx : Tx :=
  { hash := some "0xabc", gas_used := some (.num 21000), gas_price := some (.num 20000000000) }

/-- A log carrying only the signature topic. -/
def shortLog : RawLog :=
  { transaction_hash := "0xdef", block_number := 5,
    topics := ["0x0d7d75e01ab95780d3cd1c8ec0dd6c2ce19e3a20427eec8bf53283b6fb8e95f0"],
    data := none }

/-- First record observed for hash `0xh`. -/
def firstSeenTx : Tx := { hash := some "0xh", gas_used := some (.num 100), gas_price := none }

/-- Second record observed for hash `0xh`, distinct from the first. -/
def laterSeenTx : Tx := { hash := some "0xh", gas_used := some (.num 200), gas_price := none }

/-- A decoded USDC event with a given scaled amount and no gas data. -/
def usdcEvent (amt : ℚ) : DecodedEvent :=
  { tx_hash := "0xt", block := 1, token := "USDC", token_address := "", amount_raw := 0,
    amount := amt, decimals := 6, fee_raw := 0, gas_used := 0, gas_price_gwei := 0,
    recipient := "" }

/-- The summary the aggregation scenario of the spec expects. -/
def usdcScenarioSummary : TokenSummary :=
  { token := "USDC", count := 3, minAmt := 100, maxAmt := 300, total := 600,
    avgAmt := 200, gasStats := none }

/-- A service double that always reports the same `next_block`. -/
def stuckService : Nat → Page :=
  fun _ => { logs := [], transactions := [], next_block := 5, archive_height := 100 }

/-- A service double whose `next_block` strictly increases from the cursor. -/
def incService : Nat → Page :=
  fun b => { logs := [], transactions := [], next_block := b + 1, archive_height := 100 }

/-- A service double returning one transaction record that has no hash. -/
def hashlessService : Nat → Page :=
  fun _ => { logs := [], transactions := [{ hash := none, gas_used := some (.num 5), gas_price := none }],
             next_block := 10, archive_height := 100 }

/-! ### Helper lemmas -/

/-- Inserting a binding makes it the one the key resolves to. -/
theorem dictLookup_dictInsert (d : List (String × Tx)) (k : String) (v : Tx) :
    dictLookup (dictInsert d k v) k = some v := by
  induction d with
  | nil => simp [dictInsert, dictLookup]
  | cons p rest ih =>
      by_cases h : p.1 = k
      · simp [dictInsert, dictLookup, h]
      · simp [dictInsert, dictLookup, h, ih]

/-- A predicate holding for all bindings and the inserted one holds after
insertion. -/
theorem dictInsert_forall {P : String × Tx → Prop} (d : List (String × Tx))
    (k : String) (v : Tx) (hd : ∀ p ∈ d, P p) (hkv : P (k, v)) :
    ∀ p ∈ dictInsert d k v, P p := by
  induction d with
  | nil => simpa [dictInsert] using hkv
  | cons q rest ih =>
      obtain ⟨k₀, v₀⟩ := q
      intro p hp
      rw [dictInsert] at hp
      by_cases h : k₀ = k
      · rw [if_pos h] at hp
        rcases List.mem_cons.mp hp with heq | hmem
        · subst heq; rw [h]; exact hkv
        · exact hd p (List.mem_cons_of_mem _ hmem)
      · rw [if_neg h] at hp
        rcases List.mem_cons.mp hp with heq | hmem
        · subst heq; exact hd (k₀, v₀) (List.mem_cons_self _ _)
        · exact ih (fun r hr => hd r (List.mem_cons_of_mem _ hr)) p hmem

/-- Entries produced by `insertTx` are keyed by their record's truthy hash. -/
theorem insertTx_forall (d : List (String × Tx)) (t : Tx)
    (hd : ∀ p ∈ d, p.1 ≠ "" ∧ p.2.hash = some p.1) :
    ∀ p ∈ insertTx d t, p.1 ≠ "" ∧ p.2.hash = some p.1 := by
  intro p hp
  rw [insertTx] at hp
  cases ht : t.hash with
  | none => rw [ht] at hp; exact hd p hp
  | some h =>
      rw [ht] at hp
      change p ∈ if h ≠ "" then dictInsert d h t else d at hp
      by_cases hne : h = ""
      · rw [if_neg (by simp [hne])] at hp
        exact hd p hp
      · rw [if_pos hne] at hp
        exact dictInsert_forall d h t hd ⟨hne, ht⟩ p hp

/-- Entries produced by `insertTxs` are keyed by their record's truthy hash. -/
theorem insertTxs_forall (ts : List Tx) (d : List (String × Tx))
    (hd : ∀ p ∈ d, p.1 ≠ "" ∧ p.2.hash = some p.1) :
    ∀ p ∈ insertTxs d ts, p.1 ≠ "" ∧ p.2.hash = some p.1 := by
  induction ts generalizing d with
  | nil => exact hd
  | cons t rest ih => exact ih (insertTx d t) (insertTx_forall d t hd)

/-- A key absent from every binding resolves to nothing. -/
theorem dictLookup_eq_none (d : List (String × Tx)) (k : String)
    (hk : ∀ p ∈ d, p.1 ≠ k) : dictLookup d k = none := by
  induction d with
  | nil => rfl
  | cons p rest ih =>
      rw [dictLookup, if_neg (hk p (List.mem_cons_self _ _))]
      exact ih fun q hq => hk q (List.mem_cons_of_mem _ hq)

/-- With no matching transaction record, the decoded gas figures are zero. -/
theorem decode_gas_zero_of_lookup_none (log : RawLog) (txs : List (String × Tx))
    (h : dictLookup txs log.transaction_hash = none) :
    (decode_flashloan_log log txs).gas_used = 0
      ∧ (decode_flashloan_log log txs).gas_price_gwei = 0 := by
  constructor
  · show txGasUsed txs log.transaction_hash = 0
    rw [txGasUsed, h]
  · show (if txGasPrice txs log.transaction_hash = 0 then (0 : ℚ) else _) = 0
    rw [txGasPrice, h]
    simp

/-- The scaled amount is the raw amount divided by ten to the decimals. -/
theorem amount_eq_raw_div (log : RawLog) (txs : List (String × Tx)) :
    (decode_flashloan_log log txs).amount
      = ((decode_flashloan_log log txs).amount_raw : ℚ)
          / 10 ^ (decode_flashloan_log log txs).decimals := rfl

/-- The reported gwei figure is the joined raw gas price divided by `10 ^ 9`;
the truthiness guard of line 147 changes nothing since `0 / 10 ^ 9 = 0`. -/
theorem gwei_eq_price_div (log : RawLog) (txs : List (String × Tx)) :
    (decode_flashloan_log log txs).gas_price_gwei
      = (txGasPrice txs log.transaction_hash : ℚ) / 10 ^ 9 := by
  show (if txGasPrice txs log.transaction_hash = 0 then (0 : ℚ) else _) = _
  split
  · simp [*]
  · rfl

/-- Membership after stable insertion. -/
theorem mem_insertDesc {α : Type} (key : α → Nat) (x a : α) (l : List α) :
    a ∈ insertDesc key x l ↔ a = x ∨ a ∈ l := by
  induction l with
  | nil => simp [insertDesc]
  | cons y ys ih =>
      rw [insertDesc]
      by_cases h : key y ≤ key x
      · simp [h, List.mem_cons]
      · simp only [h, if_false, List.mem_cons, ih]
        tauto

/-- The stable sort permutes membership only. -/
theorem mem_sortDesc {α : Type} (key : α → Nat) (a : α) (l : List α) :
    a ∈ sortDesc key l ↔ a ∈ l := by
  induction l with
  | nil => simp [sortDesc]
  | cons y ys ih => rw [sortDesc, mem_insertDesc, ih, List.mem_cons]

/-- Stable insertion preserves the descending-key invariant. -/
theorem pairwise_insertDesc {α : Type} (key : α → Nat) (x : α) (l : List α)
    (hl : l.Pairwise (fun a b => key b ≤ key a)) :
    (insertDesc key x l).Pairwise (fun a b => key b ≤ key a) := by
  induction l with
  | nil => simp [insertDesc]
  | cons y ys ih =>
      rw [insertDesc]
      rcases List.pairwise_cons.mp hl with ⟨hy, hys⟩
      by_cases h : key y ≤ key x
      · rw [if_pos h]
        refine List.pairwise_cons.mpr ⟨?_, hl⟩
        intro z hz
        rcases List.mem_cons.mp hz with rfl | hmem
        · exact h
        · exact le_trans (hy z hmem) h
      · rw [if_neg h]
        refine List.pairwise_cons.mpr ⟨?_, ih hys⟩
        intro z hz
        rcases (mem_insertDesc key x z ys).mp hz with rfl | hmem
        · omega
        · exact hy z hmem

/-- The stable sort produces a descending-key list. -/
theorem pairwise_sortDesc {α : Type} (key : α → Nat) (l : List α) :
    (sortDesc key l).Pairwise (fun a b => key b ≤ key a) := by
  induction l with
  | nil => simp [sortDesc]
  | cons y ys ih => exact pairwise_insertDesc key y _ ih

/-- A harvest whose cursor is a fixed point of the service below the target
never finishes, whatever fuel it is given. -/
theorem harvestGo_none_of_fixpoint (service : Nat → Page) (t fromB : Nat)
    (hfix : (service fromB).next_block = fromB) (hlt : fromB < t) :
    ∀ fuel st, harvestGo service (some t) fuel fromB st = none := by
  intro fuel
  induction fuel with
  | zero => intro st; rfl
  | succ n ih =>
      intro st
      rw [harvestGo]
      have htgt : effectiveTarget (some t) (service fromB).archive_height = t := by
        rw [effectiveTarget, if_neg (by omega)]
      rw [htgt, hfix, if_neg (by omega)]
      exact ih _

/-- With a strictly advancing service, fuel covering the remaining block span
suffices for the loop to finish. -/
theorem harvestGo_isSome_of_inc (service : Nat → Page) (t : Nat)
    (hinc : ∀ b, b < (service b).next_block) :
    ∀ fuel fromB st, fromB < t → t - fromB ≤ fuel →
      (harvestGo service (some t) fuel fromB st).isSome = true := by
  intro fuel
  induction fuel with
  | zero => intro fromB st h1 h2; omega
  | succ n ih =>
      intro fromB st h1 h2
      rw [harvestGo]
      have htgt : effectiveTarget (some t) (service fromB).archive_height = t := by
        rw [effectiveTarget, if_neg (by omega)]
      rw [htgt]
      by_cases hdone : (service fromB).next_block ≥ t
      · rw [if_pos hdone]; rfl
      · rw [if_neg hdone]
        have := hinc fromB
        exact ih _ _ (by omega) (by omega)

/-- Every index entry an accumulating harvest produces is keyed by its
record's truthy hash. -/
theorem harvestGo_index_invariant (service : Nat → Page) (to_block : Option Nat) :
    ∀ fuel fromB st st',
      (∀ p ∈ st.all_txs, p.1 ≠ "" ∧ p.2.hash = some p.1) →
      harvestGo service to_block fuel fromB st = some st' →
      ∀ p ∈ st'.all_txs, p.1 ≠ "" ∧ p.2.hash = some p.1 := by
  intro fuel
  induction fuel with
  | zero => intro fromB st st' _ h; exact absurd h (by rw [harvestGo]; simp)
  | succ n ih =>
      intro fromB st st' hst h
      rw [harvestGo] at h
      have hstep : ∀ p ∈ (harvestStep st (service fromB)).all_txs,
          p.1 ≠ "" ∧ p.2.hash = some p.1 :=
        insertTxs_forall _ _ hst
      by_cases hdone :
          (service fromB).next_block ≥ effectiveTarget to_block (service fromB).archive_height
      · rw [if_pos hdone] at h
        cases h
        exact hstep
      · rw [if_neg hdone] at h
        exact ih _ _ _ hstep h

/-! ### Claims -/

/-- C1: the spec demands that a harvest in which the service returns a
`nextBlock` not strictly greater than the previous `fromBlock` before the
target is reached fail with `NoProgress`.  The loop of `query_flashloans` has
no such guard: at such an input it never terminates — whatever fuel bound it
is given, it is still running, producing neither a result nor an error. -/
theorem C1_no_progress_never_terminates (service : Nat → Page) (t fromB : Nat)
    (hfix : (service fromB).next_block = fromB) (hlt : fromB < t)
    (fuel : Nat) (st : HState) :
    harvestGo service (some t) fuel fromB st = none :=
  harvestGo_none_of_fixpoint service t fromB hfix hlt fuel st

/-- Witness for C1 at a concrete stuck service. -/
theorem C1_witness :
    (stuckService 5).next_block = 5 ∧ (5 : Nat) < 10
      ∧ harvestGo stuckService (some 10) 100 5 ⟨[], []⟩ = none :=
  ⟨rfl, by omega,
    C1_no_progress_never_terminates stuckService 10 5 rfl (by omega) 100 ⟨[], []⟩⟩

/-- C2 counterexample: two records carrying the same transaction hash; after
the lines 90–93 insertion the index resolves that hash to the second record,
not the first-seen one — so first-write-wins fails at this input. -/
theorem C2_counterexample :
    dictLookup (insertTxs [] [firstSeenTx, laterSeenTx]) "0xh" = some laterSeenTx
      ∧ dictLookup (insertTxs [] [firstSeenTx, laterSeenTx]) "0xh" ≠ some firstSeenTx := by
  decide

/-- C2 (amended): the transaction-metadata index keeps the last-seen record:
inserting a later record whose truthy hash is already a key makes that key
resolve to the later record. -/
theorem C2_last_write_wins (d : List (String × Tx)) (t : Tx) (h : String)
    (hh : t.hash = some h) (hne : h ≠ "") :
    dictLookup (insertTx d t) h = some t := by
  rw [insertTx, hh]
  change dictLookup (if h ≠ "" then dictInsert d h t else d) h = some t
  rw [if_pos hne]
  exact dictLookup_dictInsert d h t

/-- Witness for C2 at concrete records. -/
theorem C2_witness :
    laterSeenTx.hash = some "0xh" ∧ ("0xh" : String) ≠ ""
      ∧ dictLookup (insertTx [("0xh", firstSeenTx)] laterSeenTx) "0xh" = some laterSeenTx :=
  ⟨rfl, by decide,
    C2_last_write_wins [("0xh", firstSeenTx)] laterSeenTx "0xh" rfl (by decide)⟩

/-- C3: against a service whose `nextBlock` strictly increases on every call,
a harvest over `[fromBlock, toBlock]` with `fromBlock < toBlock` reaches the
stop condition within `toBlock - fromBlock` iterations. -/
theorem C3_pagination_terminates (service : Nat → Page) (t fromB : Nat) (st : HState)
    (hinc : ∀ b, b < (service b).next_block) (hlt : fromB < t) :
    (harvestGo service (some t) (t - fromB) fromB st).isSome = true :=
  harvestGo_isSome_of_inc service t hinc (t - fromB) fromB st hlt le_rfl

/-- Witness for C3 at a concrete strictly increasing service. -/
theorem C3_witness :
    (∀ b, b < (incService b).next_block) ∧ (0 : Nat) < 3
      ∧ (harvestGo incService (some 3) (3 - 0) 0 ⟨[], []⟩).isSome = true :=
  ⟨fun b => Nat.lt_succ_self b, by omega,
    C3_pagination_terminates incService 3 0 ⟨[], []⟩ (fun b => Nat.lt_succ_self b) (by omega)⟩

/-- C4: `amount_raw` is the big-endian integer of the first 32 payload bytes
(64 hex digits) and `fee_raw` of the next 32; when data is absent or shorter
than required the missing fields are zero, never an error — in particular an
empty `0x` payload decodes to `(0, 0)`. -/
theorem C4_zero_fill_decode :
    (∀ log txs, (decode_flashloan_log log txs).amount_raw = (decodeData log.data).1
        ∧ (decode_flashloan_log log txs).fee_raw = (decodeData log.data).2)
    ∧ (∀ ds, 64 ≤ ds.length → (decodeData (some ds)).1 = hexBE (ds.take 64))
    ∧ (∀ ds, 128 ≤ ds.length → (decodeData (some ds)).2 = hexBE ((ds.drop 64).take 64))
    ∧ (∀ ds, ds.length < 64 → decodeData (some ds) = (0, 0))
    ∧ (∀ ds, ds.length < 128 → (decodeData (some ds)).2 = 0)
    ∧ decodeData none = (0, 0)
    ∧ decodeData (some []) = (0, 0) := by
  refine ⟨fun log txs => ⟨rfl, rfl⟩, ?_, ?_, ?_, ?_, rfl, rfl⟩
  · intro ds h
    rw [decodeData, if_pos (by omega)]
  · intro ds h
    rw [decodeData, if_pos (by omega), if_pos (by omega)]
  · intro ds h
    rw [decodeData, if_neg (by omega)]
  · intro ds h
    rw [decodeData]
    by_cases h64 : 2 + ds.length ≥ 66
    · rw [if_pos h64, if_neg (by omega)]
    · rw [if_neg h64]

/-- Witness for C4 at concrete payloads. -/
theorem C4_witness :
    64 ≤ usdcAmountDigits.length
      ∧ (decodeData (some usdcAmountDigits)).1 = hexBE (usdcAmountDigits.take 64) :=
  ⟨by decide, C4_zero_fill_decode.2.1 usdcAmountDigits (by decide)⟩

/-- C5: a log with fewer than three topics decodes without failing: the token
fields come out empty and "Unknown" with default decimals 18, and with fewer
than two topics the recipient is empty as well. -/
theorem C5_topic_length_tolerance (log : RawLog) (txs : List (String × Tx))
    (h : log.topics.length < 3) :
    (decode_flashloan_log log txs).token_address = ""
      ∧ (decode_flashloan_log log txs).token = "Unknown"
      ∧ (decode_flashloan_log log txs).decimals = 18
      ∧ (log.topics.length < 2 → (decode_flashloan_log log txs).recipient = "") := by
  have h2 : log.topics[2]? = none := List.getElem?_eq_none (by omega)
  refine ⟨?_, ?_, ?_, fun h1 => ?_⟩
  · show (match log.topics[2]? with
      | some t => strFrom t 26
      | none => "") = ""
    rw [h2]
  · show (match lookupKnownToken log.topics[2]? with
      | some info => info
      | none =>
          (match log.topics[2]? with
           | some t => strSlice t 26 42 ++ "..."
           | none => "Unknown", 18)).1 = "Unknown"
    rw [h2]
    rfl
  · show (match lookupKnownToken log.topics[2]? with
      | some info => info
      | none =>
          (match log.topics[2]? with
           | some t => strSlice t 26 42 ++ "..."
           | none => "Unknown", 18)).2 = 18
    rw [h2]
    rfl
  · have h1' : log.topics[1]? = none := List.getElem?_eq_none (by omega)
    show (match log.topics[1]? with
      | some t => strFrom t 26
      | none => "") = ""
    rw [h1']

/-- Witness for C5 at a one-topic log. -/
theorem C5_witness :
    shortLog.topics.length < 3
      ∧ (decode_flashloan_log shortLog []).token = "Unknown"
      ∧ (decode_flashloan_log shortLog []).decimals = 18
      ∧ (decode_flashloan_log shortLog []).recipient = "" := by
  have h := C5_topic_length_tolerance shortLog [] (by decide)
  exact ⟨by decide, h.2.1, h.2.2.1, h.2.2.2 (by decide)⟩

/-- C6 counterexample: the balancer variant feeds a truthy numeric `gas_used`
straight into `int(_, 16)`, which raises `TypeError` — on a matched record
with numeric gas its decode fails instead of normalizing. -/
theorem C6_counterexample :
    decode_flashloan_log_balancer usdcLog [("0xabc", sampleTx)]
      = .error "TypeError: int() cannot convert non-string with explicit base" := rfl

/-- C6 (amended): the decoder of `extract_all_flashloans.py` (shared by
`query_all_flashloans.py`) normalizes `gasUsed` and `gasPrice` from either a
hex-string or a numeric representation without raising, and reports the raw
gas price divided by `10 ^ 9` as the gwei figure; the variant in
`query_balancer_flashloans.py` normalizes only hex strings and raises
`TypeError` on a truthy numeric value. -/
theorem C6_gas_normalization :
    (∀ log txs tx, dictLookup txs log.transaction_hash = some tx →
        (decode_flashloan_log log txs).gas_used = normGas tx.gas_used
          ∧ (decode_flashloan_log log txs).gas_price_gwei
              = (normGas tx.gas_price : ℚ) / 10 ^ 9)
    ∧ (∀ ds, normGas (some (.hexStr ds)) = hexBE ds)
    ∧ (∀ n, normGas (some (.num n)) = n)
    ∧ (∀ ds, balancerGas (some (.hexStr ds)) = .ok (hexBE ds))
    ∧ (∀ n, n ≠ 0 → balancerGas (some (.num n))
          = .error "TypeError: int() cannot convert non-string with explicit base") := by
  refine ⟨?_, fun ds => rfl, ?_, fun ds => rfl, ?_⟩
  · intro log txs tx h
    constructor
    · show txGasUsed txs log.transaction_hash = _
      rw [txGasUsed, h]
    · rw [gwei_eq_price_div, txGasPrice, h]
  · intro n
    by_cases hn : n = 0
    · simp [normGas, GasVal.truthy, hn]
    · simp [normGas, GasVal.truthy, hn]
  · intro n hn
    simp [balancerGas, GasVal.truthy, hn]

/-- Witness for C6 at concrete records. -/
theorem C6_witness :
    dictLookup [("0xabc", sampleTx)] usdcLog.transaction_hash = some sampleTx
      ∧ (decode_flashloan_log usdcLog [("0xabc", sampleTx)]).gas_used = normGas sampleTx.gas_used
      ∧ (21000 : Nat) ≠ 0
      ∧ balancerGas (some (.num 21000))
          = .error "TypeError: int() cannot convert non-string with explicit base" :=
  ⟨rfl, (C6_gas_normalization.1 usdcLog [("0xabc", sampleTx)] sampleTx rfl).1,
    by decide, C6_gas_normalization.2.2.2.2 21000 (by decide)⟩

/-- C7: the decoder is deterministic and side-effect-free — identical raw log
and transaction index always yield the identical decoded record (the
embedding is a pure function; the Python body only reads its arguments). -/
theorem C7_decode_deterministic (log log₂ : RawLog) (txs txs₂ : List (String × Tx))
    (hl : log = log₂) (ht : txs = txs₂) :
    decode_flashloan_log log txs = decode_flashloan_log log₂ txs₂ := by
  rw [hl, ht]

/-- Witness for C7 at a concrete log and index. -/
theorem C7_witness :
    decode_flashloan_log usdcLog [("0xabc", sampleTx)]
      = decode_flashloan_log usdcLog [("0xabc", sampleTx)] :=
  C7_decode_deterministic usdcLog usdcLog [("0xabc", sampleTx)] [("0xabc", sampleTx)] rfl rfl

/-- C8: every reported entry carries exactly the figures of its own token
group — count, total, min/max/average scaled amount, gas statistics only when
a positive gas figure is present — the report is in descending order of event
count, and three USDC events with scaled amounts 100, 200, 300 yield count 3,
total 600, min 100, max 300, average 200. -/
theorem C8_aggregation :
    (∀ events s, s ∈ summarize events →
        s = buildSummary s.token (events.filter (fun e => e.token == s.token)))
    ∧ (∀ events, (summarize events).Pairwise (fun a b => b.count ≤ a.count))
    ∧ summarize [usdcEvent 100, usdcEvent 200, usdcEvent 300] = [usdcScenarioSummary] := by
  refine ⟨?_, ?_, ?_⟩
  · intro events s hs
    rw [summarize] at hs
    simp only [List.mem_map] at hs
    obtain ⟨g, hg, rfl⟩ := hs
    have hg₂ : g ∈ sortDesc (fun g => g.2.length)
        ((firstKeys (events.map (·.token))).map
          (fun t => (t, events.filter (fun e => e.token == t)))) :=
      List.mem_of_mem_take hg
    rw [mem_sortDesc] at hg₂
    simp only [List.mem_map] at hg₂
    obtain ⟨t, ht, rfl⟩ := hg₂
    rfl
  · intro events
    rw [summarize]
    exact List.Pairwise.map _ (fun a b hab => hab)
      ((pairwise_sortDesc _ _).sublist (List.take_sublist 15 _))
  · simp +decide only [summarize, firstKeys, firstKeysAux, usdcEvent, sortDesc, insertDesc,
      buildSummary, qMin, qMax, nMin, nMax, List.map, List.filter, List.foldl, List.take,
      List.isEmpty, List.length, List.sum, List.foldr, usdcScenarioSummary,
      TokenSummary.mk.injEq, List.cons.injEq, List.mem_cons, decide_eq_true_eq,
      min_def, max_def]
    norm_num

/-- Witness for C8 at the concrete scenario. -/
theorem C8_witness :
    usdcScenarioSummary ∈ summarize [usdcEvent 100, usdcEvent 200, usdcEvent 300]
      ∧ usdcScenarioSummary
          = buildSummary usdcScenarioSummary.token
              ([usdcEvent 100, usdcEvent 200, usdcEvent 300].filter
                (fun e => e.token == usdcScenarioSummary.token)) := by
  have hmem : usdcScenarioSummary ∈ summarize [usdcEvent 100, usdcEvent 200, usdcEvent 300] := by
    rw [C8_aggregation.2.2]
    exact List.mem_singleton.mpr rfl
  exact ⟨hmem, C8_aggregation.1 _ _ hmem⟩

/-- C9: the scaled amount equals `amountRaw / 10 ^ decimals` and the gwei gas
price equals the raw gas price divided by `10 ^ 9`; concretely, raw amount
1000000 at 6 decimals scales to 1 and raw gas price 20000000000 converts to
20 gwei. -/
theorem C9_unit_conversion :
    (∀ log txs, (decode_flashloan_log log txs).amount
        = ((decode_flashloan_log log txs).amount_raw : ℚ)
            / 10 ^ (decode_flashloan_log log txs).decimals)
    ∧ (∀ log txs, (decode_flashloan_log log txs).gas_price_gwei
        = (txGasPrice txs log.transaction_hash : ℚ) / 10 ^ 9)
    ∧ (decode_flashloan_log usdcLog [("0xabc", sampleTx)]).amount_raw = 1000000
    ∧ (decode_flashloan_log usdcLog [("0xabc", sampleTx)]).decimals = 6
    ∧ (decode_flashloan_log usdcLog [("0xabc", sampleTx)]).amount = 1
    ∧ txGasPrice [("0xabc", sampleTx)] usdcLog.transaction_hash = 20000000000
    ∧ (decode_flashloan_log usdcLog [("0xabc", sampleTx)]).gas_price_gwei = 20 := by
  refine ⟨amount_eq_raw_div, gwei_eq_price_div, by decide, by decide, ?_, by decide, ?_⟩
  · rw [amount_eq_raw_div]
    have h1 : (decode_flashloan_log usdcLog [("0xabc", sampleTx)]).amount_raw = 1000000 := by
      decide
    have h2 : (decode_flashloan_log usdcLog [("0xabc", sampleTx)]).decimals = 6 := by decide
    rw [h1, h2]
    norm_num
  · rw [gwei_eq_price_div]
    have h1 : txGasPrice [("0xabc", sampleTx)] usdcLog.transaction_hash = 20000000000 := by
      decide
    rw [h1]
    norm_num

/-- C10: every index entry a harvest accumulates is keyed by its record's
present, non-empty hash — a record with missing or empty hash is silently
dropped by the lines 90–93 guard — and a log whose hash matches no entry (in
particular an empty hash against such an index) decodes with zero gas
figures. -/
theorem C10_index_keys_truthy (service : Nat → Page) (to_block : Option Nat)
    (fuel fromB : Nat) (st' : HState)
    (h : harvestGo service to_block fuel fromB ⟨[], []⟩ = some st') :
    (∀ p ∈ st'.all_txs, p.1 ≠ "" ∧ p.2.hash = some p.1)
    ∧ (∀ d g₁ g₂, insertTx d ⟨none, g₁, g₂⟩ = d ∧ insertTx d ⟨some "", g₁, g₂⟩ = d)
    ∧ (∀ log, log.transaction_hash = "" →
        (decode_flashloan_log log st'.all_txs).gas_used = 0
          ∧ (decode_flashloan_log log st'.all_txs).gas_price_gwei = 0) := by
  have hinv := harvestGo_index_invariant service to_block fuel fromB ⟨[], []⟩ st'
    (by intro p hp; simp at hp) h
  refine ⟨hinv, ?_, ?_⟩
  · intro d g₁ g₂
    exact ⟨rfl, by simp [insertTx]⟩
  · intro log hlog
    apply decode_gas_zero_of_lookup_none
    apply dictLookup_eq_none
    intro p hp
    rw [hlog]
    exact (hinv p hp).1

/-- Witness for C10 at a service returning one hashless record. -/
theorem C10_witness :
    harvestGo hashlessService (some 10) 1 0 ⟨[], []⟩ = some ⟨[], []⟩
      ∧ (∀ p ∈ (HState.mk [] []).all_txs, p.1 ≠ "" ∧ p.2.hash = some p.1) := by
  have h : harvestGo hashlessService (some 10) 1 0 ⟨[], []⟩ = some ⟨[], []⟩ := rfl
  exact ⟨h, (C10_index_keys_truthy hashlessService (some 10) 1 0 ⟨[], []⟩ h).1⟩

end Liq
